import Mathlib

/-!
Verification of the job-orchestration core of the `survey` repository
(`backend/app.py`, `backend/openrouter_fallback.py`).

Each Python function relevant to the frozen claims is shallowly embedded as an
executable Lean definition, translated from the source.  External effects
(process launch, HTTP requests, the wall clock, file writes) are passed in as
explicit values describing the outcome the environment produced, so that the
control flow of the Python code is preserved exactly.
-/

namespace Survey

/-! ## Python string primitives -/

/-- The whitespace characters recognised by Python's `str.strip()`, `\s` in
`re`, and `int()` (restricted to the ASCII range, which covers every input
in this development). -/
def isPyWS (c : Char) : Bool :=
  c = ' ' || c = '\t' || c = '\n' || c = '\r' || c = Char.ofNat 11 || c = Char.ofNat 12

/-- Python `str.strip()` on the character list. -/
def stripChars (cs : List Char) : List Char :=
  ((cs.dropWhile isPyWS).reverse.dropWhile isPyWS).reverse

/-- Python `str.strip()`. -/
def pyStrip (s : String) : String :=
  ⟨stripChars s.data⟩

/-- Digit test for `int()` parsing (ASCII decimal digits). -/
def isDigitChar (c : Char) : Bool :=
  '0' ≤ c && c ≤ '9'

/-- Numeric value of a list of decimal digit characters. -/
def digitsVal (cs : List Char) : Nat :=
  cs.foldl (fun a c => a * 10 + (c.toNat - '0'.toNat)) 0

/-- Python `int(s)` restricted to the shapes that occur here: optional
whitespace, an optional sign, then one or more decimal digits.  Returns
`none` when `int()` would raise `ValueError` (e.g. on a string containing a
backslash or a letter). -/
def pyInt (s : String) : Option Int :=
  let cs := stripChars s.data
  match cs with
  | [] => none
  | c :: rest =>
    let (sign, digits) : Int × List Char :=
      if c = '-' then (-1, rest)
      else if c = '+' then (1, rest)
      else (1, c :: rest)
    if digits ≠ [] && digits.all isDigitChar then
      some (sign * (digitsVal digits : Int))
    else none

/-- ASCII lower-casing, as applied by Python `str.lower()` to the ASCII
strings classified in this development. -/
def lowerStr (s : String) : String :=
  ⟨s.data.map Char.toLower⟩

/-- Test that `pat` occurs at the head of `text`. -/
def charsLead : List Char → List Char → Bool
  | [], _ => true
  | _ :: _, [] => false
  | p :: ps, t :: ts => p = t && charsLead ps ts

/-- Test that `pat` occurs somewhere in `text` (Python `pat in text`). -/
def charsContain (pat : List Char) : List Char → Bool
  | [] => charsLead pat []
  | t :: ts => charsLead pat (t :: ts) || charsContain pat ts

/-- Python substring test `pat in hay`. -/
def strContains (hay pat : String) : Bool :=
  charsContain pat.data hay.data

/-! ## JobStore status writes (`_set_job`, `_worker`, `upload_audio`)

`_set_job` (app.py:140) merges fields into the registry under one lock; the
`status` field of a job is therefore overwritten in exactly the order the
worker issues `_set_job(..., status=...)` calls.  `_worker` (app.py:1034)
is embedded as a function from the outcomes of its external steps to the
list of status values it writes.  The submission handler (app.py:1162)
writes `status="queued"` before starting the worker thread. -/

inductive JStatus where
  | queued | running | done | error
  deriving DecidableEq, Repr

/-- Outcomes of the external steps `_worker` performs, one abstract boolean
per fallible step that the code branches on:
* `modeApi`        — the worker was started with `mode == "api"`;
* `modelExists`    — `Path(WHISPER_MODEL).exists()` (local mode only);
* `ffmpegOk`       — `_to_wav_16k_mono` returned `rc == 0`;
* `transcribeOk`   — `_api_transcribe` resp. `_whisper_transcribe` succeeded;
* `surveyWriteOk`  — the post-completion courtesy copy
  `(SURVEY_DIR / out_name).write_text(...)` (app.py:1101) did not raise.
  This statement is still inside the worker's `try`, and it runs *after*
  the terminal `status="done"` write; if it raises, the `except` handler
  (app.py:1103) writes `status="error"`. -/
structure WorkerEnv where
  modeApi : Bool
  modelExists : Bool
  ffmpegOk : Bool
  transcribeOk : Bool
  surveyWriteOk : Bool
  deriving DecidableEq, Repr

/-- The status values written for one job, from submission through worker
exit, in program order (app.py:1162 then app.py:1034-1103). -/
def statusWrites (env : WorkerEnv) : List JStatus :=
  [JStatus.queued, JStatus.running] ++
  (if env.modeApi then
    if ¬ env.ffmpegOk then [JStatus.error]
    else if ¬ env.transcribeOk then [JStatus.error]
    else [JStatus.done] ++ (if env.surveyWriteOk then [] else [JStatus.error])
  else
    if ¬ env.modelExists then [JStatus.error]
    else if ¬ env.ffmpegOk then [JStatus.error]
    else [JStatus.running] ++
      (if ¬ env.transcribeOk then [JStatus.error]
       else [JStatus.done] ++ (if env.surveyWriteOk then [] else [JStatus.error])))

/-- Collapse consecutive duplicate writes: the sequence of *distinct*
status values an observer polling the registry can see. -/
def observedTrace (l : List JStatus) : List JStatus :=
  l.foldl (fun acc s => if acc.getLast? = some s then acc else acc ++ [s]) []

/-- Test that `l` is an initial segment of `big`. -/
def isLeadOf (l big : List JStatus) : Bool :=
  l = big.take l.length

/-! ## `_whisper_transcribe` per-line callback (app.py:276-338)

The source compiles two patterns from *raw* Python strings containing double
backslashes:

* `progress_re  = re.compile(r"progress\\s*=\\s*(\\d+)%", re.IGNORECASE)`
* `any_percent_re = re.compile(r"(\\d{1,3})%")`

In a raw string, `\\` denotes two characters; the regex engine reads `\\` as
an escaped *literal backslash*.  `progress_re` therefore denotes: `progress`
(case-insensitively), a literal `\`, zero or more `s`/`S`, `=`, a literal
`\`, zero or more `s`/`S`, then group 1 = a literal `\` followed by one or
more `d`/`D`, then `%`.  `any_percent_re` denotes: group 1 = a literal `\`
followed by one to three `d` characters, then `%`.  The matchers below embed
exactly those denotations. -/

/-- Test that `pat` occurs at the head of `text`, comparing case-insensitively
(`re.IGNORECASE`). -/
def charsLeadICase : List Char → List Char → Bool
  | [], _ => true
  | _ :: _, [] => false
  | p :: ps, t :: ts => p.toLower = t.toLower && charsLeadICase ps ts

/-- Attempt `progress_re` at the head of `cs`; on success return the text of
group 1.  Greedy `s*`/`d+` need no backtracking because the character
required after each repetition (`=`, `\`, `%`) is never in the repeated
class. -/
def progressMatchAt (cs : List Char) : Option String :=
  if charsLeadICase "progress".data cs then
    match cs.drop 8 with
    | '\\' :: r1 =>
      match r1.dropWhile (fun c => c = 's' || c = 'S') with
      | '=' :: r2 =>
        match r2 with
        | '\\' :: r3 =>
          match r3.dropWhile (fun c => c = 's' || c = 'S') with
          | '\\' :: r4 =>
            let ds := r4.takeWhile (fun c => c = 'd' || c = 'D')
            if ds ≠ [] && charsLead ['%'] (r4.drop ds.length) then
              some ⟨'\\' :: ds⟩
            else none
          | _ => none
        | _ => none
      | _ => none
    | _ => none
  else none

/-- Attempt `any_percent_re` at the head of `cs`; on success return the text
of group 1.  The greedy counted repetition `d{1,3}` can only succeed by
consuming *all* `m` leading `d` characters (any shorter attempt faces a `d`
where `%` is required), so it matches iff `1 ≤ m ≤ 3` and the next character
is `%`. -/
def anyPercentMatchAt (cs : List Char) : Option String :=
  match cs with
  | '\\' :: rest =>
    let ds := rest.takeWhile (fun c => c = 'd')
    if 1 ≤ ds.length && ds.length ≤ 3 && charsLead ['%'] (rest.drop ds.length) then
      some ⟨'\\' :: ds⟩
    else none
  | _ => none

/-- Python `re.search`: try the pattern at each position, left to right. -/
def reSearch (matchAt : List Char → Option String) : List Char → Option String
  | [] => matchAt []
  | c :: cs =>
    match matchAt (c :: cs) with
    | some g => some g
    | none => reSearch matchAt cs

/-- The closure state of `on_line` inside `_whisper_transcribe`:
`log_tail` and `last_progress`. -/
structure WhisperCb where
  logTail : List String
  lastProgress : Option Int
  deriving DecidableEq, Repr

/-- One `_set_job` call issued by `on_line`: when `last_progress` is set the
call carries `progress`, `message` and `log_tail`; otherwise only
`log_tail`. -/
structure JobPush where
  progress : Option Int
  message : Option String
  logTail : List String
  deriving DecidableEq, Repr

/-- The tail update of `on_line` (app.py:305-307): append the stripped
line, then truncate to the last 80 entries (`log_tail = log_tail[-80:]`)
once the length exceeds 80. -/
def capTail (tail : List String) (s : String) : List String :=
  let t1 := tail ++ [s]
  if t1.length > 80 then t1.drop (t1.length - 80) else t1

/-- The `last_progress` update of `on_line` (app.py:309-324) on a stripped
non-empty line `s`: try `progress_re` (explicit pattern, overwrite), else
`any_percent_re` (opportunistic pattern, max-combine, 0–100 only).
`int()` failures inside the handlers are swallowed
(`except Exception: pass`), leaving `last_progress` unchanged. -/
def progressUpdate (lp0 : Option Int) (s : String) : Option Int :=
  match reSearch progressMatchAt s.data with
  | some g =>
    match pyInt g with
    | some v => some v
    | none => lp0
  | none =>
    match reSearch anyPercentMatchAt s.data with
    | some g2 =>
      match pyInt g2 with
      | some v =>
        if 0 ≤ v ∧ v ≤ 100 then
          some (match lp0 with | none => v | some o => max o v)
        else lp0
      | none => lp0
    | none => lp0

/-- The `message` field pushed along with a known progress value
(app.py:331). -/
def progressMsg (lp : Option Int) : Option String :=
  lp.map (fun v => "转写中… " ++ toString v ++ "%")

/-- The callback `on_line` (app.py:299-335): strip the line; ignore it if empty; append
to the 80-capped tail; update `last_progress`; push to the registry
(progress and message only when `last_progress` is set). -/
def whisperOnLine (st : WhisperCb) (line : String) : WhisperCb × Option JobPush :=
  let s := pyStrip line
  if s = "" then (st, none)
  else
    let tail := capTail st.logTail s
    let lp := progressUpdate st.lastProgress s
    ({ logTail := tail, lastProgress := lp },
     some { progress := lp, message := progressMsg lp, logTail := tail })

/-- Run `on_line` over a list of lines, collecting every `_set_job` push. -/
def whisperRun (st : WhisperCb) (pushes : List JobPush) : List String → WhisperCb × List JobPush
  | [] => (st, pushes)
  | l :: ls =>
    let r := whisperOnLine st l
    whisperRun r.1 (pushes ++ (match r.2 with | some p => [p] | none => [])) ls

/-- The callback applied to a whole log stream, from the initial closure
state (`log_tail = []`, `last_progress = None`). -/
def whisperFold (lines : List String) : WhisperCb × List JobPush :=
  whisperRun ⟨[], none⟩ [] lines

/-- The stripped non-empty lines of a stream — exactly those `on_line`
appends to the tail. -/
def relevantLines (lines : List String) : List String :=
  (lines.map pyStrip).filter (fun s => s ≠ "")

/-- The last `n` entries of a list (Python `l[-n:]`). -/
def lastN (n : Nat) (l : List String) : List String :=
  l.drop (l.length - n)

/-! ## `should_try_next_model` / `chat_with_model_fallback`
(openrouter_fallback.py:26-106)

Exceptions are represented by their `str(e)` message, which is all the
classifier and the error summary consume. -/

/-- Attempt `re.search(r"HTTPError:\s*(\d+)", s)` at the head of `cs`:
literal `HTTPError:`, real whitespace class, then group 1 = one or more
decimal digits (greedy, nothing follows, so no backtracking). -/
def httpErrMatchAt (cs : List Char) : Option String :=
  if charsLead "HTTPError:".data cs then
    let r := (cs.drop 10).dropWhile isPyWS
    let ds := r.takeWhile isDigitChar
    if ds ≠ [] then some ⟨ds⟩ else none
  else none

/-- The classifier `should_try_next_model` (openrouter_fallback.py:26): extract an
HTTP-like status code from the message and accept the retryable set, else
fall back to case-insensitive keyword matching. -/
def shouldTryNextModel (s : String) : Bool :=
  match reSearch httpErrMatchAt s.data with
  | some g =>
    match pyInt g with
    | some code =>
      if code = 402 ∨ code = 403 ∨ code = 404 ∨ code = 429 ∨
         code = 500 ∨ code = 502 ∨ code = 503 ∨ code = 504 then true
      else keywordRetryable s
    | none => keywordRetryable s
  | none => keywordRetryable s
where
  keywordRetryable (s : String) : Bool :=
    let lowered := lowerStr s
    ["insufficient", "quota", "rate", "limit", "exceeded", "payment",
     "billing", "credits", "too many requests", "no endpoints found",
     "model not found", "not found", "timeout", "timed out",
     "empty content", "inner error", "filtered", "refused"].any
      (fun k => strContains lowered k)

/-- One entry of `resp["choices"]` as observed by the validator:
`errorTruthy` is the value of `"error" in first_choice and
first_choice["error"]`, and `content` is
`first_choice.get("message", {}).get("content", "")` with every falsy
outcome collapsed to `""` (Python tests it with `not msg_content`). -/
structure ChatChoice where
  errorTruthy : Bool
  content : String
  deriving DecidableEq, Repr

/-- A chat-completion response as observed by `chat_with_model_fallback`:
`hasChoicesKey` is `isinstance(resp, dict) and "choices" in resp`, and
`tag` stands for the rest of the payload so that distinct responses stay
distinct. -/
structure ChatResp where
  hasChoicesKey : Bool
  choices : List ChatChoice
  tag : Nat
  deriving DecidableEq, Repr

/-- The validation block inside the `try` (openrouter_fallback.py:80-88):
`some msg` means a `RuntimeError(msg)` is raised (the interpolated payload
of the f-string is elided; the classifier only consumes the prefix kept
here). -/
def validateResp (r : ChatResp) : Option String :=
  if r.hasChoicesKey then
    match r.choices with
    | [] => none
    | first :: _ =>
      if first.errorTruthy then some "Model returned inner error"
      else if first.content = "" then
        some "Model returned empty content (possibly filtered or refused)"
      else none
  else none

/-- Outcome of one `call_fn` invocation: a returned response, or a raised
exception carrying `str(e)`. -/
inductive CallOutcome where
  | ok (r : ChatResp)
  | exc (msg : String)
  deriving DecidableEq, Repr

/-- The whole `try` body for one candidate: the call, then validation;
either of them raising lands in the `except` with the message. -/
def attemptCall (callFn : String → CallOutcome) (m : String) : Except String ChatResp :=
  match callFn m with
  | .exc e => .error e
  | .ok r =>
    match validateResp r with
    | some emsg => .error emsg
    | none => .ok r

/-- Python `msg[:300] + "..." if len(msg) > 300 else msg`
(openrouter_fallback.py:94-95). -/
def pyTrunc300 (s : String) : String :=
  if s.data.length > 300 then ⟨s.data.take 300⟩ ++ "..." else s

/-- Result of `chat_with_model_fallback`: the returned pair, or the raised
exception. -/
inductive FallbackResult where
  | success (model : String) (resp : ChatResp)
  | raised (msg : String)
  | aggregateError (summary : String)
  | emptyCandidates
  deriving DecidableEq, Repr

/-- The post-loop aggregate message (openrouter_fallback.py:102-105). -/
def aggSummary (errors : List (String × String)) (lastErr : String) : String :=
  "所有模型都调用失败：" ++
  (if errors ≠ [] then
    String.intercalate "; " (errors.map (fun me => me.1 ++ ": " ++ me.2))
  else lastErr)

/-- The candidate loop of `chat_with_model_fallback`
(openrouter_fallback.py:73-106), instrumented with the list of candidates
actually invoked (in order) so that "never invokes a later candidate" is
statable.  `errors` and `lastErr` are the loop accumulators. -/
def fallbackGo (callFn : String → CallOutcome) :
    List String → List (String × String) → Option String → FallbackResult × List String
  | [], errors, lastErr =>
    (match lastErr with
     | some le => .aggregateError (aggSummary errors le)
     | none => .emptyCandidates, [])
  | m :: rest, errors, _lastErr =>
    match attemptCall callFn m with
    | .ok r => (.success m r, [m])
    | .error e =>
      if shouldTryNextModel e then
        let r := fallbackGo callFn rest (errors ++ [(m, pyTrunc300 e)]) (some e)
        (r.1, m :: r.2)
      else (.raised e, [m])

/-- The function `chat_with_model_fallback(candidates, call_fn)` together with the list
of invoked candidates. -/
def chatWithModelFallback (callFn : String → CallOutcome) (cands : List String) :
    FallbackResult × List String :=
  fallbackGo callFn cands [] none

/-! ## Remote-transcriber polling loops (C6)

Each poll of the result endpoint is abstracted as one record carrying the
outcomes the loop branches on; the stream of polls is a function from the
1-based poll counter.  Sleeping does not affect the iteration count and is
not modelled. -/

/-- One `getResult` poll as observed by `_xunfei_transcribe`
(app.py:834-945): HTTP status, JSON parse success, the envelope test
`code == 0 or str(code) == "0"`, `content.orderInfo.status` (default 3),
and the net transcript produced by the result-extraction paths on status 4
(`""` when none matched). -/
structure LegacyPollResp where
  httpStatus : Nat
  parseOk : Bool
  codeZero : Bool
  status : Int
  text : String
  deriving DecidableEq, Repr

/-- How a run of the legacy polling loop ended, with the final value of
`poll_count`. -/
inductive LegacyOutcome where
  | ok (polls : Nat) (text : String)
  | noText (polls : Nat)
  | httpError (polls : Nat)
  | parseError (polls : Nat)
  | codeError (polls : Nat)
  | loopExit (polls : Nat) (lastStatus : Int)
  deriving DecidableEq, Repr

/-- The loop `while status == 3 and poll_count < max_polls` of
`_xunfei_transcribe` (app.py:834).  `fuel` only bounds the recursion; the
top-level instantiation supplies `fuel = maxPolls`, which always outlasts
the loop condition (`poll_count` grows by 1 per iteration), so the `0`
branch coincides with the loop-condition exit. -/
def legacyPollAux (resp : Nat → LegacyPollResp) (maxPolls : Nat) :
    Nat → Nat → Int → LegacyOutcome
  | 0, pollCount, status => .loopExit pollCount status
  | fuel + 1, pollCount, status =>
    if status ≠ 3 ∨ maxPolls ≤ pollCount then .loopExit pollCount status
    else
      if (resp (pollCount + 1)).httpStatus ≠ 200 then .httpError (pollCount + 1)
      else if ¬ (resp (pollCount + 1)).parseOk then .parseError (pollCount + 1)
      else if ¬ (resp (pollCount + 1)).codeZero then .codeError (pollCount + 1)
      else if (resp (pollCount + 1)).status = 4 then
        (if pyStrip (resp (pollCount + 1)).text ≠ "" then
          .ok (pollCount + 1) (pyStrip (resp (pollCount + 1)).text)
         else .noText (pollCount + 1))
      else legacyPollAux resp maxPolls fuel (pollCount + 1) (resp (pollCount + 1)).status

/-- The legacy polling phase: `max_polls = 120`, `poll_count = 0`,
`status = 3` (app.py:830-832). -/
def xunfeiPollLoop (resp : Nat → LegacyPollResp) : LegacyOutcome :=
  legacyPollAux resp 120 120 0 3

/-- Final `poll_count` of a legacy outcome. -/
def legacyPollsOf : LegacyOutcome → Nat
  | .ok n _ => n
  | .noText n => n
  | .httpError n => n
  | .parseError n => n
  | .codeError n => n
  | .loopExit n _ => n

/-- One `getResult` poll as observed by `_xunfei_transcribe_new_api`
(app.py:545-734): HTTP status, parse success, the `is_success` envelope
test, the value produced by the `or`-chained status lookups (`none` when
every lookup is falsy, e.g. absent or `0`), and the net transcript the
lattice/fallback extraction produces on status 4. -/
structure NewPollResp where
  httpStatus : Nat
  parseOk : Bool
  codeSuccess : Bool
  status : Option Int
  text : String
  deriving DecidableEq, Repr

/-- How a run of the current-variant polling loop ended. -/
inductive NewOutcome where
  | ok (polls : Nat) (text : String)
  | noText (polls : Nat)
  | failed (polls : Nat)
  | httpError (polls : Nat)
  | parseError (polls : Nat)
  | codeError (polls : Nat)
  | budgetExhausted (polls : Nat)
  deriving DecidableEq, Repr

/-- The bound `max_wait_seconds = max(600, int(task_estimate_time / 1000) * 3)`
(app.py:539), on the non-negative-integer estimates the server reports. -/
def newApiMaxWaitSeconds (est : Nat) : Nat :=
  max 600 ((est / 1000) * 3)

/-- The budget `max_polls = max(120, max_wait_seconds // 5)` (app.py:540). -/
def newApiMaxPolls (est : Nat) : Nat :=
  max 120 (newApiMaxWaitSeconds est / 5)

/-- The loop `while poll_count < max_polls` of `_xunfei_transcribe_new_api`
(app.py:545-734): a non-200 poll, a parse failure, or a non-success
envelope returns an error; status 4 returns the extracted text (or an
error when it is empty); status 2 returns failure; anything else — 0, 3,
other codes, or an all-falsy lookup chain — sleeps and continues. -/
def newApiPollAux (resp : Nat → NewPollResp) (maxPolls : Nat) :
    Nat → Nat → NewOutcome
  | 0, pollCount => .budgetExhausted pollCount
  | fuel + 1, pollCount =>
    if maxPolls ≤ pollCount then .budgetExhausted pollCount
    else
      if (resp (pollCount + 1)).httpStatus ≠ 200 then .httpError (pollCount + 1)
      else if ¬ (resp (pollCount + 1)).parseOk then .parseError (pollCount + 1)
      else if ¬ (resp (pollCount + 1)).codeSuccess then .codeError (pollCount + 1)
      else if (resp (pollCount + 1)).status = some 4 then
        (if (resp (pollCount + 1)).text ≠ "" then
          .ok (pollCount + 1) (pyStrip (resp (pollCount + 1)).text)
         else .noText (pollCount + 1))
      else if (resp (pollCount + 1)).status = some 2 then .failed (pollCount + 1)
      else newApiPollAux resp maxPolls fuel (pollCount + 1)

/-- The current-variant polling phase for a reported estimate. -/
def newApiPollLoop (resp : Nat → NewPollResp) (est : Nat) : NewOutcome :=
  newApiPollAux resp (newApiMaxPolls est) (newApiMaxPolls est) 0

/-- Final `poll_count` of a current-variant outcome. -/
def newPollsOf : NewOutcome → Nat
  | .ok n _ => n
  | .noText n => n
  | .failed n => n
  | .httpError n => n
  | .parseError n => n
  | .codeError n => n
  | .budgetExhausted n => n

/-! ## Bytes, SHA-1, HMAC-SHA1, Base64

`hashlib.sha1`, `hmac.new(..., hashlib.sha1)` and `base64.b64encode` used by
the signing code, implemented over byte lists (`Nat` values < 256) with
32-bit words as `Nat` reduced modulo `2^32`. -/

/-- UTF-8 encode one code point. -/
def encodeCharUtf8 (n : Nat) : List Nat :=
  if n < 128 then [n]
  else if n < 2048 then [192 ||| (n >>> 6), 128 ||| (n &&& 63)]
  else if n < 65536 then
    [224 ||| (n >>> 12), 128 ||| ((n >>> 6) &&& 63), 128 ||| (n &&& 63)]
  else
    [240 ||| (n >>> 18), 128 ||| ((n >>> 12) &&& 63),
     128 ||| ((n >>> 6) &&& 63), 128 ||| (n &&& 63)]

/-- Python `s.encode("utf-8")`. -/
def utf8Bytes (s : String) : List Nat :=
  (s.data.map (fun c => encodeCharUtf8 c.toNat)).flatten

/-- Reduce to a 32-bit word. -/
def w32 (n : Nat) : Nat := n % 4294967296

/-- Left rotation of a 32-bit word. -/
def rotl32 (n b : Nat) : Nat := w32 ((n <<< b) ||| (n >>> (32 - b)))

/-- Bitwise complement of a word below `2^32`. -/
def bnot32 (n : Nat) : Nat := 4294967295 - n

/-- Big-endian bytes of a 32-bit word. -/
def be32 (n : Nat) : List Nat :=
  [(n >>> 24) &&& 255, (n >>> 16) &&& 255, (n >>> 8) &&& 255, n &&& 255]

/-- Big-endian bytes of a 64-bit length field. -/
def be64 (n : Nat) : List Nat :=
  [(n >>> 56) &&& 255, (n >>> 48) &&& 255, (n >>> 40) &&& 255,
   (n >>> 32) &&& 255, (n >>> 24) &&& 255, (n >>> 16) &&& 255,
   (n >>> 8) &&& 255, n &&& 255]

/-- SHA-1 padding: `0x80`, zeros to 56 mod 64, 64-bit bit length. -/
def sha1Pad (msg : List Nat) : List Nat :=
  msg ++ [128] ++ List.replicate ((119 - msg.length % 64) % 64) 0 ++
    be64 (msg.length * 8)

/-- Pack bytes into big-endian 32-bit words. -/
def bytesToWords : List Nat → List Nat
  | a :: b :: c :: d :: rest =>
    ((((a <<< 8) ||| b) <<< 8 ||| c) <<< 8 ||| d) :: bytesToWords rest
  | _ => []

/-- Split into 64-byte blocks (`fuel` dominates the list length). -/
def chunkBlocks : Nat → List Nat → List (List Nat)
  | 0, _ => []
  | _ + 1, [] => []
  | fuel + 1, l => l.take 64 :: chunkBlocks fuel (l.drop 64)

/-- Extend the 16 schedule words to 80: repeatedly append
`rotl1 (w[i-3] xor w[i-8] xor w[i-14] xor w[i-16])`. -/
def sha1Expand : Nat → List Nat → List Nat
  | 0, acc => acc
  | k + 1, acc =>
    let n := acc.length
    let g (j : Nat) : Nat := acc.getD (n - j) 0
    sha1Expand k (acc ++ [rotl32 ((g 3) ^^^ (g 8) ^^^ (g 14) ^^^ (g 16)) 1])

/-- One SHA-1 round. -/
def sha1Round (st : Nat × Nat × Nat × Nat × Nat) (iw : Nat × Nat) :
    Nat × Nat × Nat × Nat × Nat :=
  let (a, b, c, d, e) := st
  let (i, w) := iw
  let f :=
    if i < 20 then ((b &&& c) ||| (bnot32 b &&& d))
    else if i < 40 then (b ^^^ c ^^^ d)
    else if i < 60 then ((b &&& c) ||| (b &&& d) ||| (c &&& d))
    else (b ^^^ c ^^^ d)
  let k :=
    if i < 20 then 1518500249
    else if i < 40 then 1859775393
    else if i < 60 then 2400959708
    else 3395469782
  let temp := w32 (rotl32 a 5 + f + e + k + w)
  (temp, a, rotl32 b 30, c, d)

/-- Compress one 64-byte block into the running state. -/
def sha1Compress (h : Nat × Nat × Nat × Nat × Nat) (block : List Nat) :
    Nat × Nat × Nat × Nat × Nat :=
  let ws := sha1Expand 64 (bytesToWords block)
  let (a, b, c, d, e) := ws.enum.foldl sha1Round h
  let (h0, h1, h2, h3, h4) := h
  (w32 (h0 + a), w32 (h1 + b), w32 (h2 + c), w32 (h3 + d), w32 (h4 + e))

/-- SHA-1 digest (20 bytes) of a byte list. -/
def sha1 (msg : List Nat) : List Nat :=
  let padded := sha1Pad msg
  let (h0, h1, h2, h3, h4) :=
    (chunkBlocks padded.length padded).foldl sha1Compress
      (1732584193, 4023233417, 2562383102, 271733878, 3285377520)
  be32 h0 ++ be32 h1 ++ be32 h2 ++ be32 h3 ++ be32 h4

/-- Python `hmac.new(key, msg, hashlib.sha1).digest()` (block size 64). -/
def hmacSha1 (key msg : List Nat) : List Nat :=
  let k0 := if 64 < key.length then sha1 key else key
  let kp := k0 ++ List.replicate (64 - k0.length) 0
  sha1 ((kp.map (fun b => b ^^^ 92)) ++ sha1 ((kp.map (fun b => b ^^^ 54)) ++ msg))

/-- The Base64 alphabet. -/
def b64Char (n : Nat) : Char :=
  "ABCDEFGHIJKLMNOPQRSTUVWXYZabcdefghijklmnopqrstuvwxyz0123456789+/".data.getD n 'A'

/-- Python `base64.b64encode` with standard padding, as a string. -/
def base64Encode : List Nat → String
  | a :: b :: c :: rest =>
    ⟨[b64Char (a >>> 2), b64Char (((a &&& 3) <<< 4) ||| (b >>> 4)),
      b64Char (((b &&& 15) <<< 2) ||| (c >>> 6)), b64Char (c &&& 63)]⟩ ++
    base64Encode rest
  | [a, b] =>
    ⟨[b64Char (a >>> 2), b64Char (((a &&& 3) <<< 4) ||| (b >>> 4)),
      b64Char ((b &&& 15) <<< 2), '=']⟩
  | [a] =>
    ⟨[b64Char (a >>> 2), b64Char ((a &&& 3) <<< 4), '=', '=']⟩
  | [] => ""

/-! ## Variant B signing (C7, C10)

`_xunfei_generate_signature` (app.py:355-392) and the inline
canonical-string/signature blocks of `_xunfei_transcribe_new_api`
(app.py:454-475 for the upload step and app.py:571-588 for the per-poll
query step; both inline blocks are syntactically identical).

A Python `dict` is modelled as an association list; the call sites build
dicts, so keys are unique, and `sorted(params.items())` compares tuples
whose first components then decide the order — modelled as a key-ordered
insertion sort.  Values are strings at every call site (`str(v)` applied
where needed). -/

/-- Lexicographic code-point comparison of character lists: exactly
Python's `<=` on `str`. -/
def charListLE : List Char → List Char → Bool
  | [], _ => true
  | _ :: _, [] => false
  | a :: as, b :: bs =>
    if a < b then true
    else if b < a then false
    else charListLE as bs

/-- The key order `sorted(params.items())` sorts by: Python compares the
`(key, value)` tuples lexicographically, and since the keys of a `dict`
are unique the code-point comparison of the keys decides. -/
def keyLE (a b : String × String) : Prop := charListLE a.1.data b.1.data = true

instance : DecidableRel keyLE := fun a b =>
  inferInstanceAs (Decidable (charListLE a.1.data b.1.data = true))

lemma charListLE_total : ∀ x y : List Char, charListLE x y = true ∨ charListLE y x = true
  | [], _ => Or.inl rfl
  | _ :: _, [] => Or.inr rfl
  | a :: as, b :: bs => by
    rcases lt_trichotomy a b with h | h | h
    · left; simp [charListLE, h]
    · subst h
      rcases charListLE_total as bs with ih | ih
      · left; simp [charListLE, lt_irrefl, ih]
      · right; simp [charListLE, lt_irrefl, ih]
    · right; simp [charListLE, h]

lemma charListLE_trans : ∀ x y z : List Char,
    charListLE x y = true → charListLE y z = true → charListLE x z = true
  | [], _, _ => fun _ _ => rfl
  | a :: as, [], _ => fun h _ => by simp [charListLE] at h
  | _ :: _, _ :: _, [] => fun _ h => by simp [charListLE] at h
  | a :: as, b :: bs, c :: cs => fun h1 h2 => by
    simp only [charListLE] at h1 h2 ⊢
    by_cases hab : a < b
    · by_cases hbc : b < c
      · simp [lt_trans hab hbc]
      · by_cases hcb : c < b
        · simp [hbc, hcb] at h2
        · have hbce : b = c := le_antisymm (not_lt.mp hcb) (not_lt.mp hbc)
          subst hbce
          simp [hab]
    · by_cases hba : b < a
      · simp [hab, hba] at h1
      · have habe : a = b := le_antisymm (not_lt.mp hba) (not_lt.mp hab)
        subst habe
        simp only [if_neg (lt_irrefl a)] at h1
        by_cases hac : a < c
        · simp [hac]
        · by_cases hca : c < a
          · simp [hac, hca] at h2
          · have hace : a = c := le_antisymm (not_lt.mp hca) (not_lt.mp hac)
            subst hace
            simp only [if_neg (lt_irrefl a)] at h2 ⊢
            exact charListLE_trans as bs cs h1 h2

lemma charListLE_antisymm : ∀ x y : List Char,
    charListLE x y = true → charListLE y x = true → x = y
  | [], [] => fun _ _ => rfl
  | [], _ :: _ => fun _ h => by simp [charListLE] at h
  | _ :: _, [] => fun h _ => by simp [charListLE] at h
  | a :: as, b :: bs => fun h1 h2 => by
    simp only [charListLE] at h1 h2
    by_cases hab : a < b
    · simp [hab, asymm hab] at h2
    · by_cases hba : b < a
      · simp [hab, hba] at h1
      · have habe : a = b := le_antisymm (not_lt.mp hba) (not_lt.mp hab)
        subst habe
        simp only [if_neg (lt_irrefl a)] at h1 h2
        rw [charListLE_antisymm as bs h1 h2]

instance : IsTotal (String × String) keyLE := ⟨fun a b => charListLE_total a.1.data b.1.data⟩

instance : IsTrans (String × String) keyLE :=
  ⟨fun _ _ _ h1 h2 => charListLE_trans _ _ _ h1 h2⟩

/-- Python `sorted(params.items())` under unique keys. -/
def sortPairs (params : List (String × String)) : List (String × String) :=
  List.insertionSort keyLE params

/-- Python `urllib.parse.quote(s, safe='')`: percent-encode every UTF-8
byte except ASCII letters, digits, `_`, `.`, `-`, `~`, with uppercase hex. -/
def pyQuote (s : String) : String :=
  String.join ((utf8Bytes s).map (fun b =>
    if (65 ≤ b && b ≤ 90) || (97 ≤ b && b ≤ 122) || (48 ≤ b && b ≤ 57) ||
       b = 95 || b = 46 || b = 45 || b = 126 then
      String.singleton (Char.ofNat b)
    else
      "%" ++ ⟨["0123456789ABCDEF".data.getD (b / 16) '0',
               "0123456789ABCDEF".data.getD (b % 16) '0']⟩))

/-- The parameter set the helper signs: iterate `sorted(params.items())`
keeping `k != 'signature' and v is not None and str(v).strip()`
(app.py:368-371). -/
def signedParams (params : List (String × String)) : List (String × String) :=
  (sortPairs params).filter (fun kv => kv.1 ≠ "signature" && pyStrip kv.2 ≠ "")

/-- The helper's `base_string` (app.py:374-381). -/
def canonicalString (params : List (String × String)) : String :=
  String.intercalate "&"
    ((signedParams params).map (fun kv => pyQuote kv.1 ++ "=" ++ pyQuote kv.2))

/-- The helper `_xunfei_generate_signature(access_key_secret, params)`
(app.py:355-392). -/
def xunfeiGenerateSignature (secret : String) (params : List (String × String)) : String :=
  base64Encode (hmacSha1 (utf8Bytes secret) (utf8Bytes (canonicalString params)))

/-- The parameter set the inline blocks sign: iterate
`sorted(params.items())` keeping `k != 'signature' and v` — plain
truthiness on the string value (app.py:455-457, app.py:572-574). -/
def inlineSignedParams (params : List (String × String)) : List (String × String) :=
  (sortPairs params).filter (fun kv => kv.1 ≠ "signature" && kv.2 ≠ "")

/-- The inline `base_string` (app.py:460-465, app.py:576-581). -/
def inlineBaseString (params : List (String × String)) : String :=
  String.intercalate "&"
    ((inlineSignedParams params).map (fun kv => pyQuote kv.1 ++ "=" ++ pyQuote kv.2))

/-- The inline signature (app.py:468-475, app.py:583-588). -/
def inlineXunfeiSignature (secret : String) (params : List (String × String)) : String :=
  base64Encode (hmacSha1 (utf8Bytes secret) (utf8Bytes (inlineBaseString params)))

/-! ## Process runners `_run` / `_run_stream` (app.py:152-208)

Launching the subprocess is abstracted as one value: either
`subprocess.Popen` raised `FileNotFoundError` (with `str(e)`), or the
process ran, emitting a line stream and an exit code. -/

inductive LaunchResult where
  | notFound (errMsg : String)
  | launched (lines : List String) (exitCode : Int)
  deriving DecidableEq, Repr

/-- A single-quote character, for Python `repr` of strings. -/
def sqChar : Char := Char.ofNat 39

/-- Python `f"{cmd}"` for a list of strings: `repr` of the list.  The
command vectors built by the callers contain no quotes or backslashes, for
which `repr` is plain single-quoting. -/
def pyListRepr (cmd : List String) : String :=
  "[" ++ String.intercalate ", "
    (cmd.map (fun s => String.singleton sqChar ++ s ++ String.singleton sqChar)) ++ "]"

/-- The diagnostic text both runners substitute for captured output when the
executable is missing (app.py:170, app.py:194). -/
def runDiagnostic (errMsg : String) (cmd : List String) : String :=
  "找不到命令：" ++ errMsg ++ "\ncmd=" ++ pyListRepr cmd ++ "\n"

/-- The runner `_run(cmd)` (app.py:152-170): returns `(exit code, captured text)`; a
missing binary is caught and encoded in the same tuple. -/
def pyRun (cmd : List String) (launch : LaunchResult) : Int × String :=
  match launch with
  | .notFound e => (127, runDiagnostic e cmd)
  | .launched lines rc => (rc, String.join lines)

/-- The capture-buffer step of `_run_stream`: append, then truncate to the
last `maxCapture` lines when the cap is exceeded (app.py:204-206). -/
def capAppend (maxCapture : Nat) (acc : List String) (line : String) : List String :=
  let a := acc ++ [line]
  if a.length > maxCapture then a.drop (a.length - maxCapture) else a

/-- The streaming runner `_run_stream(cmd, on_line=..., max_capture_lines=...)`
(app.py:173-208).  The per-line callback has its exceptions swallowed and
does not influence the returned tuple, so it is not part of this value. -/
def pyRunStream (cmd : List String) (launch : LaunchResult) (maxCapture : Nat) : Int × String :=
  match launch with
  | .notFound e => (127, runDiagnostic e cmd)
  | .launched lines rc => (rc, String.join (lines.foldl (capAppend maxCapture) []))

/-! ## `_strip_code_fence` and the matching endpoint `llm_match`
(app.py:119-129, app.py:1399-1454) -/

/-- Python `s.rstrip()` restricted to the ASCII whitespace set. -/
def rstripWS (s : String) : String :=
  ⟨(s.data.reverse.dropWhile isPyWS).reverse⟩

/-- A character of the fence language tag `[a-zA-Z0-9_-]`. -/
def fenceTagChar (c : Char) : Bool :=
  c.isAlphanum || c = '_' || c = '-'

/-- The cleaner `_strip_code_fence` (app.py:119-129): strip, then if the text starts
with a triple backtick drop the opening fence
(`re.sub(r"^` ++ "```" ++ `[a-zA-Z0-9_-]*\s*", "", t)`) and a closing fence at
the end (`re.sub(r"\s*` ++ "```" ++ `$", "", t)` — `$` also matches just
before one final newline, which the final `strip` removes anyway), and
strip again. -/
def stripCodeFence (s : String) : String :=
  let t := pyStrip s
  if charsLead "```".data t.data then
    let t1 : List Char := ((t.data.drop 3).dropWhile fenceTagChar).dropWhile isPyWS
    let u : List Char := if t1.getLast? = some '\n' then t1.dropLast else t1
    if charsLead "```".data u.reverse then
      pyStrip ⟨u.take (u.length - 3)⟩
    else
      pyStrip ⟨t1⟩
  else t

/-- The choice `resp["choices"][0]` as consumed by `llm_match`: the message content
(falsy collapsed to `""`, as the `except` fallback does) and
`finish_reason` (default `""`). -/
structure LlmChoice where
  content : String
  finishReason : String
  deriving DecidableEq, Repr

/-- The OpenRouter response as consumed by `llm_match`: the choice list and
`resp.get("usage")` (`none` for absent/falsy, replaced by `{}`). -/
structure LlmResp where
  choices : List LlmChoice
  usage : Option (List (String × Nat))
  deriving DecidableEq, Repr

/-- The configuration triple `llm_match` reads (app.py:1409-1412). -/
structure LlmCfg where
  apiKey : String
  model : String
  maxTokens : Int
  deriving DecidableEq, Repr

/-- A JSON value of the `llm_match` response payload. -/
inductive PyVal where
  | vStr (s : String)
  | vInt (n : Int)
  | vUsage (u : List (String × Nat))
  | vDur (ticks : Nat)
  deriving DecidableEq, Repr

/-- The endpoint `llm_match` (app.py:1399-1454): `transcriptRaw`/`questionsRaw` are
`body.get("transcript") or ""` and `body.get("questions") or ""`;
`callResult` is the outcome of `_openrouter_chat` (`.error` = the raised
exception's message, answered with HTTP 500); `duration` is the elapsed
wall-clock difference, in abstract ticks.  On success the handler returns
`jsonify` of exactly the six-entry dict embedded here (app.py:1445-1454). -/
def llmMatch (cfg : LlmCfg) (transcriptRaw questionsRaw : String)
    (callResult : Except String LlmResp) (duration : Nat) :
    Except (Nat × String) (List (String × PyVal)) :=
  if cfg.apiKey = "" then
    .error (400, "未配置 OpenRouter API Key：请在项目根目录创建 config.json（参考 config.example.json）")
  else if pyStrip transcriptRaw = "" then .error (400, "缺少 transcript（录音转写文本）")
  else if pyStrip questionsRaw = "" then .error (400, "缺少 questions（问题模板文本）")
  else
    match callResult with
    | .error e => .error (500, e)
    | .ok resp =>
      .ok [("model", .vStr cfg.model),
           ("max_tokens", .vInt cfg.maxTokens),
           ("finish_reason", .vStr
             (match resp.choices with | [] => "" | c :: _ => c.finishReason)),
           ("usage", .vUsage (resp.usage.getD [])),
           ("cleaned", .vStr (stripCodeFence
             (match resp.choices with | [] => "" | c :: _ => c.content))),
           ("match_duration", .vDur duration)]

/-- The key list of a JSON payload. -/
def payloadKeys (p : List (String × PyVal)) : List String :=
  p.map Prod.fst

/-! # Theorems -/

/-- Claim C1, counterexample.  In local mode, with the model present,
`ffmpeg` and the transcriber succeeding, but the post-completion
survey-copy write raising, the worker writes `status="error"` *after*
`status="done"` (app.py:1096, then the `except` at app.py:1103): the
observed status sequence is `[queued, running, done, error]`, which is a
prefix of neither `[queued, running, done]` nor
`[queued, running, error]`. -/
theorem claim_C1_counterexample :
    observedTrace (statusWrites ⟨false, true, true, true, false⟩) =
      [JStatus.queued, JStatus.running, JStatus.done, JStatus.error]
    ∧ isLeadOf (observedTrace (statusWrites ⟨false, true, true, true, false⟩))
        [JStatus.queued, JStatus.running, JStatus.done] = false
    ∧ isLeadOf (observedTrace (statusWrites ⟨false, true, true, true, false⟩))
        [JStatus.queued, JStatus.running, JStatus.error] = false := by
  decide

/-- Claim C1, amended: for every outcome of the worker's external steps,
the observed status sequence is a prefix of `[queued, running, done]` or of
`[queued, running, error]`, or it is exactly
`[queued, running, done, error]` — the last only when the post-completion
survey-copy write fails after the terminal `done` was already recorded. -/
theorem claim_C1_amended (env : WorkerEnv) :
    isLeadOf (observedTrace (statusWrites env))
      [JStatus.queued, JStatus.running, JStatus.done] = true
    ∨ isLeadOf (observedTrace (statusWrites env))
      [JStatus.queued, JStatus.running, JStatus.error] = true
    ∨ (observedTrace (statusWrites env) =
        [JStatus.queued, JStatus.running, JStatus.done, JStatus.error]
       ∧ env.surveyWriteOk = false) := by
  obtain ⟨a, b, c, d, e⟩ := env
  cases a <;> cases b <;> cases c <;> cases d <;> cases e <;> decide

/-- Claim C2: the explicit pattern never fires on `"progress=NN%"` lines.
`progress_re` is compiled from the raw string `r"progress\\s*=\\s*(\\d+)%"`,
whose `\\` pairs denote *literal backslashes*; `"progress=42%"` and
`"progress=10%"` contain none, so neither pattern matches, `last_progress`
stays `None`, and every `_set_job` push carries no progress — the claimed
final value 10 is never produced.  (The pattern does fire on input that
contains literal backslashes, but its group `\d+` then fails `int()`.) -/
theorem claim_C2_bug :
    reSearch progressMatchAt "progress=42%".data = none
    ∧ reSearch anyPercentMatchAt "progress=42%".data = none
    ∧ (whisperFold ["progress=42%", "progress=10%"]).1.lastProgress = none
    ∧ (whisperFold ["progress=42%", "progress=10%"]).2.map JobPush.progress = [none, none] := by
  decide

/-- Claim C3: the opportunistic pattern never fires on `"NN%"` lines.
`any_percent_re` is compiled from the raw string `r"(\\d{1,3})%"`, which
requires a literal backslash before the `d` characters; `"hello 30%"` and
`"hello 10%"` contain none, so `last_progress` stays `None` — the claimed
final value 30 (and the running-max combination) is never produced. -/
theorem claim_C3_bug :
    reSearch anyPercentMatchAt "hello 30%".data = none
    ∧ (whisperFold ["hello 30%", "hello 10%"]).1.lastProgress = none
    ∧ (whisperFold ["hello 30%", "hello 10%"]).2.map JobPush.progress = [none, none] := by
  decide

lemma lastN_length_le (n : Nat) (l : List String) : (lastN n l).length ≤ n := by
  simp only [lastN, List.length_drop]
  omega

lemma capTail_lastN (R : List String) (s : String) :
    capTail (lastN 80 R) s = lastN 80 (R ++ [s]) := by
  simp only [capTail, lastN, List.length_append, List.length_drop, List.length_singleton]
  rcases Nat.lt_or_ge R.length 80 with h | h
  · have h1 : R.length - 80 = 0 := by omega
    have h2 : R.length + 1 - 80 = 0 := by omega
    rw [h1, h2, List.drop_zero, List.drop_zero]
    rw [if_neg (by simp; omega)]
  · rw [if_pos (by omega)]
    rw [List.drop_append_eq_append_drop, List.drop_append_eq_append_drop]
    have h2 : R.length - (R.length - 80) + 1 - 80 - (R.drop (R.length - 80)).length = 0 := by
      simp only [List.length_drop]; omega
    have h3 : R.length + 1 - 80 - R.length = 0 := by omega
    simp only [h2, h3, List.drop_zero]
    rw [List.drop_drop]
    have h4 : R.length - 80 + (R.length - (R.length - 80) + 1 - 80) = R.length + 1 - 80 := by
      omega
    rw [h4]

lemma relevantLines_cons (l : String) (ls : List String) :
    relevantLines (l :: ls) =
      (if pyStrip l = "" then [] else [pyStrip l]) ++ relevantLines ls := by
  simp only [relevantLines, List.map_cons, List.filter_cons]
  by_cases h : pyStrip l = "" <;> simp [h]

lemma whisperOnLine_empty (st : WhisperCb) (l : String) (h : pyStrip l = "") :
    whisperOnLine st l = (st, none) := by
  simp only [whisperOnLine]
  rw [h, if_pos rfl]

lemma whisperOnLine_push (st : WhisperCb) (l : String) (h : ¬ pyStrip l = "") :
    whisperOnLine st l =
      ({ logTail := capTail st.logTail (pyStrip l),
         lastProgress := progressUpdate st.lastProgress (pyStrip l) },
       some { progress := progressUpdate st.lastProgress (pyStrip l),
              message := progressMsg (progressUpdate st.lastProgress (pyStrip l)),
              logTail := capTail st.logTail (pyStrip l) }) := by
  simp only [whisperOnLine]
  rw [if_neg h]

lemma whisperRun_spec (lines : List String) :
    ∀ (st : WhisperCb) (pushes : List JobPush) (R : List String),
      st.logTail = lastN 80 R →
      (whisperRun st pushes lines).1.logTail = lastN 80 (R ++ relevantLines lines)
      ∧ ∀ p ∈ (whisperRun st pushes lines).2, p ∈ pushes ∨ p.logTail.length ≤ 80 := by
  induction lines with
  | nil =>
    intro st pushes R h
    refine ⟨by simpa [whisperRun, relevantLines] using h, ?_⟩
    intro p hp
    refine Or.inl ?_
    simpa [whisperRun] using hp
  | cons l ls ih =>
    intro st pushes R h
    by_cases hs : pyStrip l = ""
    · have hw : whisperRun st pushes (l :: ls) = whisperRun st pushes ls := by
        simp only [whisperRun, whisperOnLine_empty st l hs, List.append_nil]
      rw [hw, relevantLines_cons, if_pos hs, List.nil_append]
      exact ih st pushes R h
    · have hw : whisperRun st pushes (l :: ls) =
          whisperRun
            { logTail := capTail st.logTail (pyStrip l),
              lastProgress := progressUpdate st.lastProgress (pyStrip l) }
            (pushes ++ [{ progress := progressUpdate st.lastProgress (pyStrip l),
                          message := progressMsg (progressUpdate st.lastProgress (pyStrip l)),
                          logTail := capTail st.logTail (pyStrip l) }]) ls := by
        simp only [whisperRun, whisperOnLine_push st l hs]
      have htail : capTail st.logTail (pyStrip l) = lastN 80 (R ++ [pyStrip l]) := by
        rw [h, capTail_lastN]
      have hrec := ih
        { logTail := capTail st.logTail (pyStrip l),
          lastProgress := progressUpdate st.lastProgress (pyStrip l) }
        (pushes ++ [{ progress := progressUpdate st.lastProgress (pyStrip l),
                      message := progressMsg (progressUpdate st.lastProgress (pyStrip l)),
                      logTail := capTail st.logTail (pyStrip l) }])
        (R ++ [pyStrip l]) htail
      rw [hw]
      refine ⟨?_, ?_⟩
      · rw [hrec.1, relevantLines_cons, if_neg hs, List.append_assoc]
      · intro p hp
        rcases hrec.2 p hp with hmem | hlen
        · rcases List.mem_append.mp hmem with h1 | h2
          · exact Or.inl h1
          · right
            have hpl : p.logTail = capTail st.logTail (pyStrip l) := by
              cases List.mem_singleton.mp h2
              rfl
            rw [hpl, htail]
            exact lastN_length_le 80 _
        · exact Or.inr hlen

/-- Claim C5: for every sequence of input lines fed to the local-transcriber
per-line callback, the maintained (and pushed) `log_tail` never exceeds 80
entries; it is exactly the last ≤ 80 stripped non-empty lines, i.e. the
oldest entries are evicted first. -/
theorem claim_C5 (lines : List String) :
    (whisperFold lines).1.logTail = lastN 80 (relevantLines lines)
    ∧ (whisperFold lines).1.logTail.length ≤ 80
    ∧ (whisperFold lines).2.all (fun p => p.logTail.length ≤ 80) = true := by
  have h := whisperRun_spec lines ⟨[], none⟩ [] [] (by simp [lastN])
  refine ⟨by simpa using h.1, ?_, ?_⟩
  · rw [show (whisperFold lines).1.logTail = lastN 80 ([] ++ relevantLines lines) from h.1]
    exact lastN_length_le 80 _
  · rw [List.all_eq_true]
    intro p hp
    rcases h.2 p hp with hmem | hlen
    · exact absurd hmem (List.not_mem_nil p)
    · exact decide_eq_true hlen

lemma fallbackGo_spec (callFn : String → CallOutcome) :
    ∀ (cands : List String) (errors : List (String × String)) (lastErr : Option String),
      (∀ m r, (fallbackGo callFn cands errors lastErr).1 = .success m r →
        ∃ pre rest, cands = pre ++ m :: rest
          ∧ (fallbackGo callFn cands errors lastErr).2 = pre ++ [m]
          ∧ attemptCall callFn m = .ok r
          ∧ ∀ m' ∈ pre, ∃ e, attemptCall callFn m' = .error e ∧ shouldTryNextModel e = true)
      ∧ (∀ e, (fallbackGo callFn cands errors lastErr).1 = .raised e →
        ∃ pre m rest, cands = pre ++ m :: rest
          ∧ (fallbackGo callFn cands errors lastErr).2 = pre ++ [m]
          ∧ attemptCall callFn m = .error e ∧ shouldTryNextModel e = false
          ∧ ∀ m' ∈ pre, ∃ e', attemptCall callFn m' = .error e' ∧ shouldTryNextModel e' = true) := by
  intro cands
  induction cands with
  | nil =>
    intro errors lastErr
    constructor
    · intro m r heq
      cases lastErr <;> simp [fallbackGo] at heq
    · intro e heq
      cases lastErr <;> simp [fallbackGo] at heq
  | cons m rest ih =>
    intro errors lastErr
    cases hA : attemptCall callFn m with
    | ok r0 =>
      constructor
      · intro m1 r1 heq
        simp only [fallbackGo, hA] at heq
        cases heq
        refine ⟨[], rest, rfl, ?_, hA, by intro m' hm'; cases hm'⟩
        simp [fallbackGo, hA]
      · intro e heq
        simp only [fallbackGo, hA] at heq
        cases heq
    | error e0 =>
      cases hR : shouldTryNextModel e0 with
      | true =>
        constructor
        · intro m1 r1 heq
          simp [fallbackGo, hA, hR] at heq
          obtain ⟨pre, rest', hcands, hinv, hok, hpre⟩ :=
            (ih (errors ++ [(m, pyTrunc300 e0)]) (some e0)).1 m1 r1 heq
          refine ⟨m :: pre, rest', by simp [hcands], ?_, hok, ?_⟩
          · simp [fallbackGo, hA, hR, hinv]
          · intro m' hm'
            rcases List.mem_cons.mp hm' with h1 | h2
            · exact ⟨e0, by rw [h1]; exact hA, hR⟩
            · exact hpre m' h2
        · intro e heq
          simp [fallbackGo, hA, hR] at heq
          obtain ⟨pre, m1, rest', hcands, hinv, herr, hfalse, hpre⟩ :=
            (ih (errors ++ [(m, pyTrunc300 e0)]) (some e0)).2 e heq
          refine ⟨m :: pre, m1, rest', by simp [hcands], ?_, herr, hfalse, ?_⟩
          · simp [fallbackGo, hA, hR, hinv]
          · intro m' hm'
            rcases List.mem_cons.mp hm' with h1 | h2
            · exact ⟨e0, by rw [h1]; exact hA, hR⟩
            · exact hpre m' h2
      | false =>
        constructor
        · intro m1 r1 heq
          simp [fallbackGo, hA, hR] at heq
        · intro e heq
          simp [fallbackGo, hA, hR] at heq
          cases heq
          refine ⟨[], m, rest, rfl, ?_, hA, hR, by intro m' hm'; cases hm'⟩
          simp [fallbackGo, hA, hR]

/-- Claim C4: the fallback chain tries candidates in order; it returns the
pair of the first candidate whose call succeeds and whose response passes
validation, invoking exactly the candidates up to and including it; every
earlier candidate failed with a retryable classification; a failure not
classified as retryable is re-raised at once, and no remaining candidate
is invoked. -/
theorem claim_C4 (callFn : String → CallOutcome) (cands : List String) :
    (∀ m r, (chatWithModelFallback callFn cands).1 = .success m r →
      ∃ pre rest, cands = pre ++ m :: rest
        ∧ (chatWithModelFallback callFn cands).2 = pre ++ [m]
        ∧ attemptCall callFn m = .ok r
        ∧ ∀ m' ∈ pre, ∃ e, attemptCall callFn m' = .error e ∧ shouldTryNextModel e = true)
    ∧ (∀ e, (chatWithModelFallback callFn cands).1 = .raised e →
      ∃ pre m rest, cands = pre ++ m :: rest
        ∧ (chatWithModelFallback callFn cands).2 = pre ++ [m]
        ∧ attemptCall callFn m = .error e ∧ shouldTryNextModel e = false
        ∧ ∀ m' ∈ pre, ∃ e', attemptCall callFn m' = .error e' ∧ shouldTryNextModel e' = true) :=
  fallbackGo_spec callFn cands [] none

/-- The call function of the C4 witness scenario: candidate `A` raises a
retryable HTTP 429, `B` returns a valid response, `C` would raise a
non-retryable error but must never be reached. -/
def c4CallFn : String → CallOutcome := fun m =>
  if m = "A" then .exc "OpenRouter HTTPError: 429 rate limited"
  else if m = "B" then .ok ⟨true, [⟨false, "ok"⟩], 0⟩
  else .exc "boom"

/-- Witness for C4: on candidates `[A, B, C]` with `A` failing retryably
and `B` succeeding, the chain returns `B`'s response having invoked exactly
`[A, B]` — never `C`. -/
theorem claim_C4_witness :
    (chatWithModelFallback c4CallFn ["A", "B", "C"]).1 = .success "B" ⟨true, [⟨false, "ok"⟩], 0⟩
    ∧ (chatWithModelFallback c4CallFn ["A", "B", "C"]).2 = ["A", "B"]
    ∧ ∃ pre rest, ["A", "B", "C"] = pre ++ "B" :: rest
        ∧ (chatWithModelFallback c4CallFn ["A", "B", "C"]).2 = pre ++ ["B"]
        ∧ attemptCall c4CallFn "B" = .ok ⟨true, [⟨false, "ok"⟩], 0⟩
        ∧ ∀ m' ∈ pre, ∃ e, attemptCall c4CallFn m' = .error e ∧ shouldTryNextModel e = true :=
  ⟨by decide, by decide,
   (claim_C4 c4CallFn ["A", "B", "C"]).1 "B" ⟨true, [⟨false, "ok"⟩], 0⟩ (by decide)⟩

lemma legacyPollAux_polls_le (resp : Nat → LegacyPollResp) (maxPolls : Nat) :
    ∀ (fuel pc : Nat) (st : Int),
      legacyPollsOf (legacyPollAux resp maxPolls fuel pc st) ≤ pc + fuel := by
  intro fuel
  induction fuel with
  | zero => intro pc st; simp [legacyPollAux, legacyPollsOf]
  | succ f ih =>
    intro pc st
    rw [legacyPollAux]
    split_ifs <;>
      first
        | (simp only [legacyPollsOf]; omega)
        | exact le_trans (ih (pc + 1) _) (by omega)

lemma legacyPollAux_loopExit (resp : Nat → LegacyPollResp) (maxPolls : Nat) :
    ∀ (fuel pc : Nat) (st : Int), maxPolls ≤ pc + fuel → pc ≤ maxPolls →
      ∀ (n : Nat) (st' : Int),
        legacyPollAux resp maxPolls fuel pc st = .loopExit n st' →
        st' ≠ 3 ∨ n = maxPolls := by
  intro fuel
  induction fuel with
  | zero =>
    intro pc st h1 h2 n st' heq
    simp only [legacyPollAux] at heq
    cases heq
    right
    omega
  | succ f ih =>
    intro pc st h1 h2 n st' heq
    rw [legacyPollAux] at heq
    by_cases hc : st ≠ 3 ∨ maxPolls ≤ pc
    · rw [if_pos hc] at heq
      cases heq
      rcases hc with hc | hc
      · exact Or.inl hc
      · right; omega
    · rw [if_neg hc] at heq
      push_neg at hc
      split_ifs at heq; try cases heq
      · exact ih (pc + 1) (resp (pc + 1)).status (by omega) (by omega) n st' heq

lemma newApiPollAux_polls_le (resp : Nat → NewPollResp) (maxPolls : Nat) :
    ∀ (fuel pc : Nat),
      newPollsOf (newApiPollAux resp maxPolls fuel pc) ≤ pc + fuel := by
  intro fuel
  induction fuel with
  | zero => intro pc; simp [newApiPollAux, newPollsOf]
  | succ f ih =>
    intro pc
    rw [newApiPollAux]
    split_ifs <;>
      first
        | (simp only [newPollsOf]; omega)
        | exact le_trans (ih (pc + 1)) (by omega)

lemma newApiPollAux_budget (resp : Nat → NewPollResp) (maxPolls : Nat) :
    ∀ (fuel pc : Nat), maxPolls ≤ pc + fuel → pc ≤ maxPolls →
      ∀ n : Nat, newApiPollAux resp maxPolls fuel pc = .budgetExhausted n →
        n = maxPolls := by
  intro fuel
  induction fuel with
  | zero =>
    intro pc h1 h2 n heq
    simp only [newApiPollAux] at heq
    cases heq
    omega
  | succ f ih =>
    intro pc h1 h2 n heq
    rw [newApiPollAux] at heq
    by_cases hc : maxPolls ≤ pc
    · rw [if_pos hc] at heq
      cases heq
      omega
    · rw [if_neg hc] at heq
      split_ifs at heq; try cases heq
      · exact ih (pc + 1) (by omega) (by omega) n heq

/-- Claim C6, counterexample.  A first poll whose envelope is successful
(`HTTP 200`, valid JSON, `code == 0`) but whose reported status is `0`
(neither in-progress `3` nor complete `4`) makes the *legacy* loop
condition `status == 3 and poll_count < max_polls` false: the loop stops
after one iteration (reporting "转写超时"), which is not the success
status, not an explicit failure response, and not exhaustion of the
120-attempt budget. -/
theorem claim_C6_counterexample :
    xunfeiPollLoop (fun _ => ⟨200, true, true, 0, ""⟩) = .loopExit 1 0
    ∧ (1 : Nat) < 120 := by
  constructor
  · decide
  · decide

/-- Claim C6, amended: both polling loops never perform more iterations
than their budget (120 for the legacy variant;
`max(120, max_wait_seconds // 5)` for the current variant), and the
current variant's loop gives up as non-terminal only when the budget is
exhausted; but the legacy loop additionally exits as soon as a poll
reports any status other than in-progress (3) — `loopExit` with a
non-`3` status or an exhausted budget are its only non-terminal exits. -/
theorem claim_C6_amended :
    (∀ resp : Nat → LegacyPollResp, legacyPollsOf (xunfeiPollLoop resp) ≤ 120)
    ∧ (∀ (resp : Nat → LegacyPollResp) (n : Nat) (st : Int),
        xunfeiPollLoop resp = .loopExit n st → st ≠ 3 ∨ n = 120)
    ∧ (∀ (resp : Nat → NewPollResp) (est : Nat),
        newPollsOf (newApiPollLoop resp est) ≤ newApiMaxPolls est)
    ∧ (∀ (resp : Nat → NewPollResp) (est n : Nat),
        newApiPollLoop resp est = .budgetExhausted n → n = newApiMaxPolls est) := by
  refine ⟨?_, ?_, ?_, ?_⟩
  · intro resp
    simpa using legacyPollAux_polls_le resp 120 120 0 3
  · intro resp n st heq
    exact legacyPollAux_loopExit resp 120 120 0 3 (by omega) (by omega) n st heq
  · intro resp est
    simpa using newApiPollAux_polls_le resp (newApiMaxPolls est) (newApiMaxPolls est) 0
  · intro resp est n heq
    exact newApiPollAux_budget resp (newApiMaxPolls est) (newApiMaxPolls est) 0
      (by omega) (by omega) n heq

set_option maxRecDepth 10000 in
/-- Witness for the amended C6: a server that forever reports in-progress
(status 3) drives the legacy loop to exactly its 120-poll budget, and the
current loop (with estimate 0, so budget `max(120, 600 // 5) = 120`) to
`budgetExhausted` at exactly its budget. -/
theorem claim_C6_amended_witness :
    legacyPollsOf (xunfeiPollLoop (fun _ => ⟨200, true, true, 3, ""⟩)) ≤ 120
    ∧ xunfeiPollLoop (fun _ => ⟨200, true, true, 3, ""⟩) = .loopExit 120 3
    ∧ ((3 : Int) ≠ 3 ∨ (120 : Nat) = 120)
    ∧ newApiPollLoop (fun _ => ⟨200, true, true, some 3, ""⟩) 0 = .budgetExhausted 120
    ∧ (120 : Nat) = newApiMaxPolls 0 :=
  ⟨claim_C6_amended.1 (fun _ => ⟨200, true, true, 3, ""⟩),
   by decide,
   claim_C6_amended.2.1 (fun _ => ⟨200, true, true, 3, ""⟩) 120 3 (by decide),
   by decide,
   claim_C6_amended.2.2.2 (fun _ => ⟨200, true, true, some 3, ""⟩) 0 120 (by decide)⟩

/-- Strict key order, with equality absorbed so the relation is
antisymmetric. -/
def keyLT (a b : String × String) : Prop := (keyLE a b ∧ a.1 ≠ b.1) ∨ a = b

instance : IsAntisymm (String × String) keyLT :=
  ⟨fun a b h1 h2 => by
    rcases h1 with ⟨hle1, hne1⟩ | h1
    · rcases h2 with ⟨hle2, _⟩ | h2
      · refine absurd ?_ hne1
        have hd : a.1.data = b.1.data := charListLE_antisymm _ _ hle1 hle2
        exact congrArg String.mk hd
      · exact h2.symm
    · exact h1⟩

lemma signedParams_sorted (p : List (String × String)) :
    List.Sorted keyLE (signedParams p) :=
  (List.sorted_insertionSort keyLE p).filter _

lemma signedParams_perm {p1 p2 : List (String × String)} (hperm : p1.Perm p2) :
    (signedParams p1).Perm (signedParams p2) :=
  ((List.perm_insertionSort keyLE p1).trans
    (hperm.trans (List.perm_insertionSort keyLE p2).symm)).filter _

lemma signedParams_nodup_keys (p : List (String × String))
    (hnd : (p.map Prod.fst).Nodup) : ((signedParams p).map Prod.fst).Nodup := by
  have h1 : (signedParams p).Perm
      (p.filter (fun kv => kv.1 ≠ "signature" && pyStrip kv.2 ≠ "")) :=
    (List.perm_insertionSort keyLE p).filter _
  have h2 : ((p.filter (fun kv => kv.1 ≠ "signature" && pyStrip kv.2 ≠ "")).map
      Prod.fst).Nodup :=
    hnd.sublist ((List.filter_sublist p).map Prod.fst)
  exact ((h1.map Prod.fst).nodup_iff).mpr h2

lemma sorted_keyLT_of_nodup {l : List (String × String)}
    (hs : List.Sorted keyLE l) (hnd : (l.map Prod.fst).Nodup) :
    List.Sorted keyLT l := by
  have hne : l.Pairwise (fun a b : String × String => a.1 ≠ b.1) :=
    List.pairwise_map.mp hnd
  exact (hs.and hne).imp (fun h => Or.inl h)

lemma signedParams_eq {p1 p2 : List (String × String)} (hperm : p1.Perm p2)
    (hnd : (p1.map Prod.fst).Nodup) : signedParams p1 = signedParams p2 := by
  have hnd2 : (p2.map Prod.fst).Nodup := ((hperm.map Prod.fst).nodup_iff).mp hnd
  exact List.eq_of_perm_of_sorted (signedParams_perm hperm)
    (sorted_keyLT_of_nodup (signedParams_sorted p1) (signedParams_nodup_keys p1 hnd))
    (sorted_keyLT_of_nodup (signedParams_sorted p2) (signedParams_nodup_keys p2 hnd2))

/-- Claim C7: the Variant B canonical-string builder signs a parameter set
that excludes the `signature` field and is sorted by key; two parameter
maps with the same bindings in different insertion orders (modelled as
key-unique association lists that are permutations of each other) produce
the same canonical string, and hence the same HMAC-SHA1/Base64
signature. -/
theorem claim_C7 (secret : String) (p1 p2 : List (String × String))
    (hperm : p1.Perm p2) (hnd : (p1.map Prod.fst).Nodup) :
    (∀ kv ∈ signedParams p1, kv.1 ≠ "signature")
    ∧ List.Sorted keyLE (signedParams p1)
    ∧ canonicalString p1 = canonicalString p2
    ∧ xunfeiGenerateSignature secret p1 = xunfeiGenerateSignature secret p2 := by
  have heq : signedParams p1 = signedParams p2 := signedParams_eq hperm hnd
  refine ⟨?_, signedParams_sorted p1, ?_, ?_⟩
  · intro kv hkv
    have := (List.mem_filter.mp hkv).2
    simp only [Bool.and_eq_true, decide_eq_true_eq] at this
    exact this.1
  · unfold canonicalString
    rw [heq]
  · unfold xunfeiGenerateSignature canonicalString
    rw [heq]

/-- Witness for C7 at concrete inputs: the maps
`{b: 2, signature: zzz, a: 1}` and `{signature: zzz, b: 2, a: 1}` (same
bindings, different insertion order) yield the same canonical string and
signature, with `signature` excluded and keys sorted. -/
theorem claim_C7_witness :
    (∀ kv ∈ signedParams [("b", "2"), ("signature", "zzz"), ("a", "1")],
      kv.1 ≠ "signature")
    ∧ List.Sorted keyLE (signedParams [("b", "2"), ("signature", "zzz"), ("a", "1")])
    ∧ canonicalString [("b", "2"), ("signature", "zzz"), ("a", "1")] =
        canonicalString [("signature", "zzz"), ("b", "2"), ("a", "1")]
    ∧ xunfeiGenerateSignature "sec" [("b", "2"), ("signature", "zzz"), ("a", "1")] =
        xunfeiGenerateSignature "sec" [("signature", "zzz"), ("b", "2"), ("a", "1")] :=
  claim_C7 "sec" [("b", "2"), ("signature", "zzz"), ("a", "1")]
    [("signature", "zzz"), ("b", "2"), ("a", "1")]
    (List.Perm.swap ("signature", "zzz") ("b", "2") [("a", "1")])
    (by decide)

set_option maxRecDepth 10000 in
/-- Claim C10, counterexample.  The helper keeps a pair only when
`str(v).strip()` is truthy, but the inline blocks keep it when `v` itself
is truthy; a whitespace-only value — truthy, yet stripped to empty — is
therefore signed by the inline construction and dropped by the helper, and
the two Base64 HMAC-SHA1 signatures differ. -/
theorem claim_C10_counterexample :
    inlineBaseString [("a", " "), ("appId", "x")] = "a=%20&appId=x"
    ∧ canonicalString [("a", " "), ("appId", "x")] = "appId=x"
    ∧ inlineXunfeiSignature "k" [("a", " "), ("appId", "x")] ≠
        xunfeiGenerateSignature "k" [("a", " "), ("appId", "x")] := by
  refine ⟨by decide, by decide, by decide⟩

/-- Claim C10, amended: on every parameter map whose values are empty
exactly when their strip is empty — in particular on every map the two
call sites actually build, whose values never consist solely of
whitespace — the inline canonical string and signature of
`_xunfei_transcribe_new_api` (upload step and per-poll query step alike)
coincide with `_xunfei_generate_signature` applied to the same map and
secret. -/
theorem claim_C10_amended (secret : String) (params : List (String × String))
    (h : ∀ kv ∈ params, (pyStrip kv.2 = "" ↔ kv.2 = "")) :
    inlineBaseString params = canonicalString params
    ∧ inlineXunfeiSignature secret params = xunfeiGenerateSignature secret params := by
  have hsp : inlineSignedParams params = signedParams params := by
    unfold inlineSignedParams signedParams
    refine List.filter_congr ?_
    intro kv hkv
    have hmem : kv ∈ params := ((List.perm_insertionSort keyLE params).mem_iff).mp hkv
    have hd : decide (kv.2 ≠ "") = decide (pyStrip kv.2 ≠ "") :=
      decide_eq_decide.mpr (not_congr (h kv hmem)).symm
    rw [hd]
  have hbase : inlineBaseString params = canonicalString params := by
    unfold inlineBaseString canonicalString
    rw [hsp]
  refine ⟨hbase, ?_⟩
  unfold inlineXunfeiSignature xunfeiGenerateSignature
  rw [hbase]

/-- Witness for the amended C10 at a concrete map with no whitespace-only
values. -/
theorem claim_C10_amended_witness :
    (∀ kv ∈ ([("appId", "x"), ("fileName", "f.wav")] : List (String × String)),
      (pyStrip kv.2 = "" ↔ kv.2 = ""))
    ∧ inlineBaseString [("appId", "x"), ("fileName", "f.wav")] =
        canonicalString [("appId", "x"), ("fileName", "f.wav")]
    ∧ inlineXunfeiSignature "k" [("appId", "x"), ("fileName", "f.wav")] =
        xunfeiGenerateSignature "k" [("appId", "x"), ("fileName", "f.wav")] :=
  ⟨by decide,
   (claim_C10_amended "k" [("appId", "x"), ("fileName", "f.wav")] (by decide)).1,
   (claim_C10_amended "k" [("appId", "x"), ("fileName", "f.wav")] (by decide)).2⟩

/-- Claim C8: for a command whose executable cannot be found, both process
runners return — rather than raise — the pair of synthetic exit code 127
and the diagnostic string (in place of the captured output), for every
command vector, `FileNotFoundError` message, and capture cap.  The missing
binary thus arrives through the same `(exit code, text)` tuple as a binary
that ran and failed. -/
theorem claim_C8 (cmd : List String) (e : String) (maxCapture : Nat) :
    pyRun cmd (.notFound e) =
      (127, "找不到命令：" ++ e ++ "\ncmd=" ++ pyListRepr cmd ++ "\n")
    ∧ pyRunStream cmd (.notFound e) maxCapture =
      (127, "找不到命令：" ++ e ++ "\ncmd=" ++ pyListRepr cmd ++ "\n") :=
  ⟨rfl, rfl⟩

/-- Claim C9, counterexample.  A concrete successful matching request
returns the six keys `model, max_tokens, finish_reason, usage, cleaned,
match_duration` (app.py:1445-1454) — not the claimed field set
`{model, finish_reason, usage, cleaned_text, duration}`: there are neither
`cleaned_text` nor `duration` keys, and `max_tokens` is present. -/
theorem claim_C9_counterexample :
    llmMatch ⟨"key", "m", 8192⟩ "t" "q"
        (.ok ⟨[⟨"hello", "stop"⟩], some [("total_tokens", 5)]⟩) 3 =
      .ok [("model", .vStr "m"), ("max_tokens", .vInt 8192),
           ("finish_reason", .vStr "stop"), ("usage", .vUsage [("total_tokens", 5)]),
           ("cleaned", .vStr "hello"), ("match_duration", .vDur 3)]
    ∧ payloadKeys [("model", .vStr "m"), ("max_tokens", .vInt 8192),
           ("finish_reason", .vStr "stop"), ("usage", .vUsage [("total_tokens", 5)]),
           ("cleaned", .vStr "hello"), ("match_duration", .vDur 3)] ≠
        ["model", "finish_reason", "usage", "cleaned_text", "duration"]
    ∧ "cleaned_text" ∉ payloadKeys [("model", .vStr "m"), ("max_tokens", .vInt 8192),
           ("finish_reason", .vStr "stop"), ("usage", .vUsage [("total_tokens", 5)]),
           ("cleaned", .vStr "hello"), ("match_duration", .vDur 3)] := by
  refine ⟨by rfl, by decide, by decide⟩

/-- Claim C9, amended: every successful matching request (non-empty
API key, non-empty stripped `transcript` and `questions`, call succeeded)
returns a response object whose fields are exactly
`{model, max_tokens, finish_reason, usage, cleaned, match_duration}`. -/
theorem claim_C9_amended (cfg : LlmCfg) (t q : String) (cr : Except String LlmResp)
    (d : Nat) (p : List (String × PyVal)) (h : llmMatch cfg t q cr d = .ok p) :
    payloadKeys p =
      ["model", "max_tokens", "finish_reason", "usage", "cleaned", "match_duration"] := by
  unfold llmMatch at h
  split_ifs at h; try exact absurd h (by simp)
  cases cr with
  | error e => exact absurd h (by simp)
  | ok resp =>
    simp only [Except.ok.injEq] at h
    subst h
    rfl

/-- Witness for the amended C9 at a concrete successful request. -/
theorem claim_C9_amended_witness :
    llmMatch ⟨"key", "m", 8192⟩ " hi " "qs"
        (.ok ⟨[⟨"ans", "stop"⟩], none⟩) 7 =
      .ok [("model", .vStr "m"), ("max_tokens", .vInt 8192),
           ("finish_reason", .vStr "stop"), ("usage", .vUsage []),
           ("cleaned", .vStr "ans"), ("match_duration", .vDur 7)]
    ∧ payloadKeys [("model", PyVal.vStr "m"), ("max_tokens", .vInt 8192),
           ("finish_reason", .vStr "stop"), ("usage", .vUsage []),
           ("cleaned", .vStr "ans"), ("match_duration", .vDur 7)] =
        ["model", "max_tokens", "finish_reason", "usage", "cleaned", "match_duration"] :=
  ⟨by rfl,
   claim_C9_amended ⟨"key", "m", 8192⟩ " hi " "qs" (.ok ⟨[⟨"ans", "stop"⟩], none⟩) 7
     [("model", .vStr "m"), ("max_tokens", .vInt 8192),
      ("finish_reason", .vStr "stop"), ("usage", .vUsage []),
      ("cleaned", .vStr "ans"), ("match_duration", .vDur 7)] (by rfl)⟩

end Survey
